import Mathlib

/-!
Shallow embedding of `src/main.py` of image-to-ascii, together with proofs
about the tiling / matching pipeline.

Conventions used throughout:
* numpy 2-D matrices that are passed around by value (glyph buffers, the tile
  handed to `closest_char`) are embedded as `List (List Int)`, row major.
* the decoded image (`frame`) is embedded as a `Grid`: its two dimensions and
  a pixel function; numpy reshape / swapaxes index arithmetic is carried out
  on the row-major flat index, exactly as numpy does for a contiguous buffer.
* Python `int` is `Int`; the exact values are faithful because every numpy
  intermediate in the source fits its dtype: glyphs are materialised as
  `int16`, differences of luminance samples (range 0..255) lie in
  [-255, 255], and numpy reduces integer sums with at least a 64-bit
  accumulator, which no realistic image can overflow.
* Python `float` arguments (`args.tile_width`, `args.tile_height`,
  `args.contrast`, and the derived `h/w`) are embedded as `ℚ`; each use below
  is either discarded before arithmetic or is evaluated at inputs where the
  double-precision result and the exact rational result round identically
  (this is re-checked in a comment at each such point).
* a raised Python exception is an `Except.error` carrying a `RunError`.
-/

/-- The exceptions `main` can raise in the embedded fragment, plus the two
error classes that §7 of the design document names.  `invalidGeometry` and
`emptyCharacterSet` are modelled from the spec only: no code in
`src/main.py` defines or raises them; they are included so that statements
about them can be written down (and refuted). -/
inductive RunError where
  /-- Python `divmod`/`/` with divisor 0 (lines 144, 146, 147, 154). -/
  | zeroDivisionError
  /-- attribute lookup on the argparse namespace for a dest the parser never
  defined (lines 128, 134). -/
  | attributeError
  /-- numpy error: broadcasting / reducing / argmin over an empty glyph
  array (line 171 with an empty `-C` string). -/
  | valueError
  /-- Python sequence indexing out of range. -/
  | indexError
  /-- Modelled from the spec: `InvalidGeometry` from the §7 error taxonomy.
  Missing from the code: `src/main.py` contains no such error. -/
  | invalidGeometry
  /-- Modelled from the spec: `EmptyCharacterSet` from the §7 error taxonomy.
  Missing from the code: `src/main.py` contains no such error. -/
  | emptyCharacterSet
  deriving DecidableEq

deriving instance DecidableEq for Except

/-- L1 distance of one matrix row pair, `Σ |x - y|` (line 171, the
per-element `np.abs(char_glyphs - tile)` restricted to one row). -/
def l1RowDist (ra rb : List Int) : Nat :=
  (List.zipWith (fun x y => (x - y).natAbs) ra rb).sum

/-- `np.abs(g - tile).sum()` for one glyph `g` (line 171): the L1 distance
between two row-major matrices of identical shape. -/
def l1Dist (a b : List (List Int)) : Nat :=
  (List.zipWith l1RowDist a b).sum

/-- Value and index of the first minimum of a list (`none` on `[]`).
On ties the earlier index wins, which is exactly numpy `argmin`'s
first-occurrence rule. -/
def minWithIdx : List Nat → Option (Nat × Nat)
  | [] => none
  | x :: xs =>
    match minWithIdx xs with
    | none => some (x, 0)
    | some (v, j) => if x ≤ v then some (x, 0) else some (v, j + 1)

/-- numpy `argmin` over a flat array embedded as a list: index of the first
occurrence of the minimum, `none` for the empty array (where numpy raises). -/
def argmin (l : List Nat) : Option Nat :=
  (minWithIdx l).map Prod.snd

/-- Lines 169-171:

`char_set[np.abs(char_glyphs - tile).sum((1, 2)).argmin()]`.

`char_set` and `char_glyphs` are the closure's captured values; in `main`,
`char_glyphs` is built by mapping the glyph renderer over `char_set`, so the
two always have equal length there.  With an empty character set the glyph
array is empty and numpy's reduction/argmin raises (embedded as
`valueError`); an argmin index beyond `char_set` would be a Python
`IndexError` (unreachable in `main`). -/
def closest_char (char_set : List Char) (char_glyphs : List (List (List Int)))
    (tile : List (List Int)) : Except RunError Char :=
  match argmin (char_glyphs.map (fun g => l1Dist g tile)) with
  | none => Except.error RunError.valueError
  | some i =>
    match char_set.get? i with
    | none => Except.error RunError.indexError
    | some c => Except.ok c

/-- Rectangularity test for two row-major matrices: same row count and the
rows match up in length pairwise.  Every glyph buffer and every tile in the
program has shape `tile_height × tile_width`, so any two of them satisfy
this. -/
def sameShapeB : List (List Int) → List (List Int) → Bool
  | [], [] => true
  | ra :: a, rb :: b => ra.length == rb.length && sameShapeB a b
  | _, _ => false

/-- Line 11: `DEFAULT_FONT_SIZE = 16`. -/
def DEFAULT_FONT_SIZE : Int := 16

/-- Line 15: `DEFAULT_TILE_WIDTH = 0.6` (the width-to-font-size multiplier;
a Python float, embedded as the exact rational it denotes in source text). -/
def DEFAULT_TILE_WIDTH : ℚ := 3 / 5

/-- Line 16: `DEFAULT_TILE_HEIGHT = 1.5`. -/
def DEFAULT_TILE_HEIGHT : ℚ := 3 / 2

/-- The resolved sizing data of one run: the values `main` holds in its
locals `tile_width`, `tile_height`, `h_tile_count`, `v_tile_count`,
`font_size` and the two padding amounts it passes to `pad_with`. -/
structure Geometry where
  tile_width : Int
  tile_height : Int
  h_tile_count : Int
  v_tile_count : Int
  h_pad : Int
  v_pad : Int
  font_size : Int
  deriving DecidableEq

/-- Python's built-in `round` on an exact value: round half to even. -/
def pyRound (q : ℚ) : Int :=
  let f := ⌊q⌋
  let r := q - f
  if r < 1 / 2 then f
  else if 1 / 2 < r then f + 1
  else if f % 2 = 0 then f else f + 1

/-- Lines 140–157, the tile-count branch of `main`'s sizing code.

* line 142–144: `v_tile_count` is the `-y` value if given, otherwise
  `round(h_tile_count * h/w * args.tile_width/args.tile_height)`; with
  `w = 0` Python's `h/w` raises `ZeroDivisionError`, as does
  `.../args.tile_height` when that multiplier is `0.0`.  The float products
  are embedded as exact rationals; every concrete use below sits far from a
  representability or tie boundary, so the rounded value agrees with the
  double computation.
* lines 146–150: `tile_width_neg, h_pad = divmod(-w, h_tile_count)` and the
  vertical analogue; Python `divmod` is floor division (`Int.fdiv` /
  `Int.fmod`) and raises `ZeroDivisionError` on divisor `0`.
* lines 153–154: `font_size = floor(min(tile_width / args.tile_width,
  tile_height / args.tile_height))` when `-s` was not given.

The frame padding of line 157 is `pad_with` applied afterwards and is
modelled separately on `Grid`.  The derived `v_tile_count` of lines 142–144
and the derived `font_size` of lines 153–154 are split out below as
`resolveVTileCount` and `resolveFontSize`. -/
def resolveVTileCount (w h : Int) (h_tile_count : Int) (vOpt : Option Int)
    (twMul thMul : ℚ) : Except RunError Int :=
  match vOpt with
  | some v => Except.ok v
  | none =>
    if w = 0 then Except.error RunError.zeroDivisionError
    else if thMul = 0 then Except.error RunError.zeroDivisionError
    else Except.ok (pyRound ((h_tile_count : ℚ) * ((h : ℚ) / (w : ℚ)) * twMul / thMul))

/-- Lines 153–154: the largest font size fitting the tile, unless `-s`
supplied one. -/
def resolveFontSize (tile_width tile_height : Int) (twMul thMul : ℚ)
    (fsOpt : Option Int) : Except RunError Int :=
  match fsOpt with
  | some s => Except.ok s
  | none =>
    if twMul = 0 ∨ thMul = 0 then Except.error RunError.zeroDivisionError
    else Except.ok ⌊min ((tile_width : ℚ) / twMul) ((tile_height : ℚ) / thMul)⌋

def resolveTileCount (w h : Int) (h_tile_count : Int) (vOpt : Option Int)
    (twMul thMul : ℚ) (fsOpt : Option Int) : Except RunError Geometry :=
  match resolveVTileCount w h h_tile_count vOpt twMul thMul with
  | Except.error e => Except.error e
  | Except.ok v_tile_count =>
    if h_tile_count = 0 then Except.error RunError.zeroDivisionError
    else if v_tile_count = 0 then Except.error RunError.zeroDivisionError
    else
      match resolveFontSize (-(Int.fdiv (-w) h_tile_count))
          (-(Int.fdiv (-h) v_tile_count)) twMul thMul fsOpt with
      | Except.error e => Except.error e
      | Except.ok font_size =>
        Except.ok ⟨-(Int.fdiv (-w) h_tile_count), -(Int.fdiv (-h) v_tile_count),
          h_tile_count, v_tile_count, Int.fmod (-w) h_tile_count,
          Int.fmod (-h) v_tile_count, font_size⟩

/-- The attribute names looked up on the argparse namespace `args` anywhere
in `main`. -/
inductive ArgAttr where
  | image_file
  | use_tile_dimensions
  | contrast
  | char_set
  | font
  | font_size
  | h_tile_count
  | v_tile_count
  | tile_width
  | tile_height
  | absolute_tile_width
  | absolute_tile_height
  deriving DecidableEq

/-- Which attributes exist on `args`: exactly the `dest`s of the
`parser.add_argument` calls, lines 63–108 (`image_file`,
`use_tile_dimensions`, `contrast`, `char_set`, `font`, `font_size`,
`h_tile_count`, `v_tile_count`, `tile_width`, `tile_height`).  No call
defines `absolute_tile_width` or `absolute_tile_height`, yet lines 128 and
134 read them. -/
def parserDefines : ArgAttr → Bool
  | ArgAttr.image_file => true
  | ArgAttr.use_tile_dimensions => true
  | ArgAttr.contrast => true
  | ArgAttr.char_set => true
  | ArgAttr.font => true
  | ArgAttr.font_size => true
  | ArgAttr.h_tile_count => true
  | ArgAttr.v_tile_count => true
  | ArgAttr.tile_width => true
  | ArgAttr.tile_height => true
  | ArgAttr.absolute_tile_width => false
  | ArgAttr.absolute_tile_height => false

/-- Lines 122–123: in the `-d` branch `font_size` falls back to
`DEFAULT_FONT_SIZE` when `-s` was not given. -/
def tileDimensionFontSize (fsOpt : Option Int) : Int :=
  match fsOpt with
  | some s => s
  | none => DEFAULT_FONT_SIZE

/-- Lines 121–136, the tile-dimension branch of `main`'s sizing code (the
`-d` flag).  Lines 122–123 (the font-size default) execute, then line 128
evaluates `args.absolute_tile_width`.  `parserDefines
ArgAttr.absolute_tile_width = false` — the parser never creates that
attribute — so the lookup raises `AttributeError` and nothing after it
(`ceil`, padding, tiling) runs on this path. -/
def resolveTileDimensions (fsOpt : Option Int) : Except RunError Geometry :=
  let _font_size := tileDimensionFontSize fsOpt
  Except.error RunError.attributeError

/-- Lines 112–157 of `main`, restricted to geometry resolution.  The decoded
pixel rows (`frame`, line 115) and the `-c` contrast multiplier are in scope
there and are therefore taken as inputs, but the sizing code never reads
either: only `img.size` (`w`, `h`) and the sizing arguments flow in. -/
def mainGeometry (frame : List (List Int)) (contrast : ℚ)
    (use_tile_dimensions : Bool) (w h : Int) (h_tile_count : Int)
    (vOpt : Option Int) (twMul thMul : ℚ) (fsOpt : Option Int) :
    Except RunError Geometry :=
  if use_tile_dimensions then resolveTileDimensions fsOpt
  else resolveTileCount w h h_tile_count vOpt twMul thMul fsOpt

/-- A decoded luminance image: dimensions plus a pixel function (row,
column).  numpy's contiguous row-major buffer of such an array stores
`pixel r c` at flat offset `r * width + c`. -/
structure Grid where
  height : Nat
  width : Nat
  pixel : Nat → Nat → Int

/-- Entry at a flat (row-major) offset of the buffer behind a `Grid`. -/
def flatGet (a : Grid) (k : Nat) : Int :=
  a.pixel (k / a.width) (k % a.width)

/-- Lines 30–46, `to_tiles(frame, tile_width, tile_height)`: with
`v_tile_count = h // tile_height` and `h_tile_count = w // tile_width`, the
source does

`frame.reshape(v_tile_count, tile_height, h_tile_count, tile_width).swapaxes(1, 2)`.

On the row-major buffer, `reshape`d entry `[i, a, j, b]` is flat offset
`((i*tile_height + a) * h_tile_count + j) * tile_width + b`, and
`swapaxes(1, 2)` exchanges the `a` and `j` axes, so the returned 4-D array
satisfies `result[i, j, a, b] = reshaped[i, a, j, b]`.  The embedding gives
that entry directly as a function of `(i, j, a, b)`. -/
def to_tiles (frame : Grid) (tile_width tile_height : Nat)
    (i j a b : Nat) : Int :=
  flatGet frame
    (((i * tile_height + a) * (frame.width / tile_width) + j) * tile_width + b)

/-- Lines 19–27, `pad_with(a, h_padding, v_padding)`: `np.pad(a, ((top,
bottom), (left, right)), "edge")` with `left = h_padding // 2`,
`right = h_padding - left`, `top = v_padding // 2`,
`bottom = v_padding - top`.  Edge mode reads the original at the clamped
index `clip(r - top, 0, height - 1)`; natural subtraction already clamps at
`0`, `min` clamps at the far edge. -/
def pad_with (a : Grid) (h_padding v_padding : Nat) : Grid :=
  ⟨a.height + v_padding, a.width + h_padding,
   fun r c =>
     a.pixel (min (a.height - 1) (r - v_padding / 2))
             (min (a.width - 1) (c - h_padding / 2))⟩

/-- The tile handed to `closest_char` for grid position `(i, j)`,
materialised as the row-major matrix the numpy view denotes. -/
def tileMatrix (frame : Grid) (tile_width tile_height i j : Nat) :
    List (List Int) :=
  (List.range tile_height).map (fun a =>
    (List.range tile_width).map (fun b =>
      to_tiles frame tile_width tile_height i j a b))

/-- Lines 174–176: one `closest_char` result per tile, row by row — the
grid of characters `main` prints (each row is joined and printed in source
order). -/
def render_output (frame : Grid) (tile_width tile_height : Nat)
    (char_set : List Char) (char_glyphs : List (List (List Int))) :
    List (List (Except RunError Char)) :=
  (List.range (frame.height / tile_height)).map (fun i =>
    (List.range (frame.width / tile_width)).map (fun j =>
      closest_char char_set char_glyphs (tileMatrix frame tile_width tile_height i j)))

theorem minWithIdx_eq_none_iff (l : List Nat) : minWithIdx l = none ↔ l = [] := by
  cases l with
  | nil => simp [minWithIdx]
  | cons x xs =>
    simp only [minWithIdx]
    constructor
    · intro h
      cases hxs : minWithIdx xs with
      | none => rw [hxs] at h; simp at h
      | some p =>
        rw [hxs] at h
        obtain ⟨v, j⟩ := p
        by_cases hle : x ≤ v <;> simp [hle] at h
    · intro h; cases h

/-- Full characterisation of `minWithIdx`: the returned index is in range,
holds the returned value, that value is a global minimum, and every earlier
entry is strictly larger. -/
theorem minWithIdx_spec (l : List Nat) (v j : Nat) (h : minWithIdx l = some (v, j)) :
    ∃ hj : j < l.length,
      l.get ⟨j, hj⟩ = v ∧
      (∀ (k : Nat) (hk : k < l.length), v ≤ l.get ⟨k, hk⟩) ∧
      (∀ (k : Nat) (hk : k < l.length), k < j → v < l.get ⟨k, hk⟩) := by
  induction l generalizing v j with
  | nil => simp [minWithIdx] at h
  | cons x xs ih =>
    simp only [minWithIdx] at h
    cases hxs : minWithIdx xs with
    | none =>
      rw [hxs] at h
      simp only [Option.some.injEq, Prod.mk.injEq] at h
      obtain ⟨rfl, rfl⟩ := h
      have hnil : xs = [] := (minWithIdx_eq_none_iff xs).mp hxs
      subst hnil
      refine ⟨by simp, rfl, ?_, ?_⟩
      · intro k hk
        have hk0 : k = 0 := by simpa using Nat.lt_one_iff.mp (by simpa using hk)
        subst hk0
        simp
      · intro k hk hlt
        omega
    | some p =>
      obtain ⟨v', j'⟩ := p
      rw [hxs] at h
      obtain ⟨hj', hget', hmin', hfirst'⟩ := ih v' j' hxs
      replace h : (if x ≤ v' then some (x, 0) else some (v', j' + 1)) = some (v, j) := h
      by_cases hle : x ≤ v'
      · rw [if_pos hle] at h
        simp only [Option.some.injEq, Prod.mk.injEq] at h
        obtain ⟨rfl, rfl⟩ := h
        refine ⟨by simp, rfl, ?_, ?_⟩
        · intro k hk
          cases k with
          | zero => simp
          | succ k =>
            have hk' : k < xs.length := by simpa using hk
            have := hmin' k hk'
            simpa using le_trans hle this
        · intro k hk hlt
          omega
      · rw [if_neg hle] at h
        simp only [Option.some.injEq, Prod.mk.injEq] at h
        obtain ⟨h1, h2⟩ := h
        subst h1
        subst h2
        have hlt : v' < x := Nat.lt_of_not_le hle
        refine ⟨by simpa using Nat.succ_lt_succ hj', by simpa using hget', ?_, ?_⟩
        · intro k hk
          cases k with
          | zero => simpa using le_of_lt hlt
          | succ k =>
            have hk' : k < xs.length := by simpa using hk
            simpa using hmin' k hk'
        · intro k hk hklt
          cases k with
          | zero => simpa using hlt
          | succ k =>
            have hk' : k < xs.length := by simpa using hk
            have hkj : k < j' := by omega
            simpa using hfirst' k hk' hkj

/-- Workhorse behind the matcher claims: on a non-empty character set whose
glyph list has matching length, `closest_char` succeeds and returns the
character at the first distance-minimising index, and that index never points
at the later member of a pair of pixel-identical glyphs. -/
theorem closest_char_spec (char_set : List Char) (char_glyphs : List (List (List Int)))
    (tile : List (List Int)) (hne : char_set ≠ [])
    (hlen : char_glyphs.length = char_set.length) :
    ∃ (i : Nat) (hcs : i < char_set.length) (hcg : i < char_glyphs.length),
      closest_char char_set char_glyphs tile = Except.ok (char_set.get ⟨i, hcs⟩) ∧
      (∀ (j : Nat) (hj : j < char_glyphs.length),
        l1Dist (char_glyphs.get ⟨i, hcg⟩) tile ≤ l1Dist (char_glyphs.get ⟨j, hj⟩) tile) ∧
      (∀ (j : Nat) (hj : j < char_glyphs.length), j < i →
        l1Dist (char_glyphs.get ⟨i, hcg⟩) tile < l1Dist (char_glyphs.get ⟨j, hj⟩) tile) ∧
      (∀ (j k : Nat) (hj : j < char_glyphs.length) (hk : k < char_glyphs.length),
        j < k → char_glyphs.get ⟨j, hj⟩ = char_glyphs.get ⟨k, hk⟩ → i ≠ k) := by
  have hgne : char_glyphs ≠ [] := by
    intro hcontra
    apply hne
    have : char_set.length = 0 := by rw [← hlen, hcontra]; rfl
    exact List.length_eq_zero.mp this
  set d := char_glyphs.map (fun g => l1Dist g tile) with hd
  have hdlen : d.length = char_glyphs.length := List.length_map _ _
  have hdne : d ≠ [] := by
    intro hcontra
    apply hgne
    have : char_glyphs.length = 0 := by rw [← hdlen, hcontra]; rfl
    exact List.length_eq_zero.mp this
  cases hmw : minWithIdx d with
  | none => exact absurd ((minWithIdx_eq_none_iff d).mp hmw) hdne
  | some p =>
    obtain ⟨v, i⟩ := p
    obtain ⟨hi, hgetv, hmin, hfirst⟩ := minWithIdx_spec d v i hmw
    have hcg : i < char_glyphs.length := hdlen ▸ hi
    have hcs : i < char_set.length := hlen ▸ hcg
    have hdget : ∀ (j : Nat) (hj : j < char_glyphs.length),
        d.get ⟨j, hdlen.symm ▸ hj⟩ = l1Dist (char_glyphs.get ⟨j, hj⟩) tile := by
      intro j hj
      simp [hd]
    have hargmin : argmin d = some i := by simp [argmin, hmw]
    refine ⟨i, hcs, hcg, ?_, ?_, ?_, ?_⟩
    · unfold closest_char
      rw [← hd, hargmin]
      show (match char_set.get? i with
            | none => Except.error RunError.indexError
            | some c => Except.ok c) = Except.ok (char_set.get ⟨i, hcs⟩)
      rw [List.get?_eq_get hcs]
    · intro j hj
      have := hmin j (hdlen.symm ▸ hj)
      rw [hdget j hj] at this
      have hvi : l1Dist (char_glyphs.get ⟨i, hcg⟩) tile = v := by
        rw [← hdget i hcg]; exact hgetv
      rw [hvi]
      exact this
    · intro j hj hji
      have := hfirst j (hdlen.symm ▸ hj) hji
      rw [hdget j hj] at this
      have hvi : l1Dist (char_glyphs.get ⟨i, hcg⟩) tile = v := by
        rw [← hdget i hcg]; exact hgetv
      rw [hvi]
      exact this
    · intro j k hj hk hjk heq hik
      subst hik
      have hjlt : l1Dist (char_glyphs.get ⟨i, hcg⟩) tile < l1Dist (char_glyphs.get ⟨j, hj⟩) tile := by
        have := hfirst j (hdlen.symm ▸ hj) hjk
        rw [hdget j hj] at this
        have hvi : l1Dist (char_glyphs.get ⟨i, hcg⟩) tile = v := by
          rw [← hdget i hcg]; exact hgetv
        rw [hvi]
        exact this
      rw [show char_glyphs.get ⟨j, hj⟩ = char_glyphs.get ⟨i, hcg⟩ from heq] at hjlt
      exact lt_irrefl _ hjlt

theorem l1RowDist_eq_zero_iff (ra rb : List Int) (hlen : ra.length = rb.length) :
    l1RowDist ra rb = 0 ↔ ra = rb := by
  induction ra generalizing rb with
  | nil =>
    have : rb = [] := List.length_eq_zero.mp (by simpa using hlen.symm)
    subst this
    simp [l1RowDist]
  | cons x ra ih =>
    cases rb with
    | nil => simp at hlen
    | cons y rb =>
      have hlen' : ra.length = rb.length := by simpa using hlen
      simp only [l1RowDist, List.zipWith_cons_cons, List.sum_cons] at *
      rw [Nat.add_eq_zero]
      constructor
      · rintro ⟨h1, h2⟩
        have hxy : x = y := by
          have := Int.natAbs_eq_zero.mp h1
          omega
        have := (ih rb hlen').mp h2
        rw [hxy, this]
      · intro h
        injection h with h1 h2
        subst h1
        refine ⟨by simp, ?_⟩
        exact (ih rb hlen').mpr h2

theorem l1Dist_eq_zero_iff (a b : List (List Int)) (hshape : sameShapeB a b = true) :
    l1Dist a b = 0 ↔ a = b := by
  induction a generalizing b with
  | nil =>
    cases b with
    | nil => simp [l1Dist]
    | cons rb b => simp [sameShapeB] at hshape
  | cons ra a ih =>
    cases b with
    | nil => simp [sameShapeB] at hshape
    | cons rb b =>
      simp only [sameShapeB, Bool.and_eq_true, beq_iff_eq] at hshape
      obtain ⟨hrow, hrest⟩ := hshape
      simp only [l1Dist, List.zipWith_cons_cons, List.sum_cons] at *
      rw [Nat.add_eq_zero]
      constructor
      · rintro ⟨h1, h2⟩
        rw [(l1RowDist_eq_zero_iff ra rb hrow).mp h1, (ih b hrest).mp h2]
      · intro h
        injection h with h1 h2
        subst h1
        exact ⟨(l1RowDist_eq_zero_iff ra ra rfl).mpr rfl, (ih b hrest).mpr h2⟩

theorem sameShapeB_self (a : List (List Int)) : sameShapeB a a = true := by
  induction a with
  | nil => rfl
  | cons ra a ih => simp [sameShapeB, ih]

theorem l1Dist_self (a : List (List Int)) : l1Dist a a = 0 :=
  (l1Dist_eq_zero_iff a a (sameShapeB_self a)).mpr rfl

theorem pad_closes_to_multiple (w n : Int) :
    w + Int.fmod (-w) n = -(Int.fdiv (-w) n) * n := by
  have h := Int.fmod_add_fdiv (-w) n
  have h2 : Int.fmod (-w) n = -w - n * Int.fdiv (-w) n := by linarith
  rw [h2]; ring

theorem fmod_neg_bounds (w n : Int) (hn : 0 < n) :
    0 ≤ Int.fmod (-w) n ∧ Int.fmod (-w) n < n := by
  rw [Int.fmod_eq_emod _ hn.le]
  exact ⟨Int.emod_nonneg _ (ne_of_gt hn), Int.emod_lt_of_pos _ hn⟩

theorem neg_fdiv_neg_eq_ceil (w n : Int) (hn : 0 < n) :
    -(Int.fdiv (-w) n) = ⌈(w : ℚ) / (n : ℚ)⌉ := by
  rw [Int.fdiv_eq_ediv _ hn.le]
  have hfloor : ⌊((-w : Int) : ℚ) / ((n : Int) : ℚ)⌋ = (-w) / n := by
    obtain ⟨d, hd⟩ : ∃ d : ℕ, n = (d : Int) := ⟨n.toNat, (Int.toNat_of_nonneg hn.le).symm⟩
    subst hd
    exact_mod_cast Rat.floor_intCast_div_natCast (-w) d
  have hceil : ⌈(w : ℚ) / (n : ℚ)⌉ = -⌊-((w : ℚ) / (n : ℚ))⌋ := by
    rw [Int.floor_neg, neg_neg]
  rw [hceil]
  congr 1
  rw [← hfloor]
  congr 1
  push_cast
  ring

theorem ceil_one_div_of_pos (n : Int) (hn : 0 < n) : ⌈(1 : ℚ) / (n : ℚ)⌉ = 1 := by
  have hnq : (0 : ℚ) < (n : ℚ) := by exact_mod_cast hn
  have hle : ⌈(1 : ℚ) / (n : ℚ)⌉ ≤ 1 := by
    rw [Int.ceil_le]
    push_cast
    rw [div_le_one hnq]
    exact_mod_cast hn
  have hpos : 0 < ⌈(1 : ℚ) / (n : ℚ)⌉ := by
    rw [Int.lt_ceil]
    push_cast
    exact div_pos one_pos hnq
  omega

/-- Inversion of the tile-count branch: on success every `Geometry` field is
the corresponding `divmod` expression of the source, and both divisors were
non-zero. -/
theorem resolveTileCount_ok (w h n : Int) (vOpt : Option Int) (twMul thMul : ℚ)
    (fsOpt : Option Int) (g : Geometry)
    (hok : resolveTileCount w h n vOpt twMul thMul fsOpt = Except.ok g) :
    g.h_tile_count = n ∧ n ≠ 0 ∧ g.v_tile_count ≠ 0 ∧
    g.tile_width = -(Int.fdiv (-w) n) ∧ g.h_pad = Int.fmod (-w) n ∧
    g.tile_height = -(Int.fdiv (-h) g.v_tile_count) ∧
    g.v_pad = Int.fmod (-h) g.v_tile_count := by
  unfold resolveTileCount at hok
  split at hok
  · cases hok
  · rename_i v_tile_count heqv
    split at hok
    · cases hok
    · rename_i hn0
      split at hok
      · cases hok
      · rename_i hv0
        split at hok
        · cases hok
        · rename_i font_size heqf
          cases hok
          refine ⟨rfl, hn0, hv0, rfl, rfl, rfl, rfl⟩

/-- The only exception the derived-`v_tile_count` computation can raise is
`ZeroDivisionError` (from `h/w` or from the trailing `/args.tile_height`). -/
theorem resolveVTileCount_error_eq (w h n : Int) (vOpt : Option Int)
    (twMul thMul : ℚ) (e : RunError)
    (he : resolveVTileCount w h n vOpt twMul thMul = Except.error e) :
    e = RunError.zeroDivisionError := by
  unfold resolveVTileCount at he
  split at he
  · cases he
  · split at he
    · cases he; rfl
    · split at he
      · cases he; rfl
      · cases he

/-- The position-(i, j, a, b) entry of the tiled view, written back in the
source image's coordinates: `to_tiles` reads pixel
`(i * tile_height + a, j * tile_width + b)`. -/
theorem to_tiles_entry (frame : Grid) (tw th i j a b : Nat)
    (htw : 0 < tw) (hdvd : tw ∣ frame.width)
    (hj : j < frame.width / tw) (hb : b < tw) :
    to_tiles frame tw th i j a b = frame.pixel (i * th + a) (j * tw + b) := by
  unfold to_tiles flatGet
  have hw : frame.width / tw * tw = frame.width := Nat.div_mul_cancel hdvd
  have hr : j * tw + b < frame.width := by
    have h1 : j * tw + b < (j + 1) * tw := by
      rw [Nat.succ_mul]
      omega
    have h2 : (j + 1) * tw ≤ frame.width / tw * tw :=
      Nat.mul_le_mul_right tw hj
    omega
  have hwpos : 0 < frame.width := by
    have hhcpos : 0 < frame.width / tw := lt_of_le_of_lt (Nat.zero_le j) hj
    rw [← hw]
    exact Nat.mul_pos hhcpos htw
  have hidx : ((i * th + a) * (frame.width / tw) + j) * tw + b
      = frame.width * (i * th + a) + (j * tw + b) := by
    calc ((i * th + a) * (frame.width / tw) + j) * tw + b
        = (i * th + a) * (frame.width / tw * tw) + (j * tw + b) := by ring
      _ = frame.width * (i * th + a) + (j * tw + b) := by rw [hw]; ring
  rw [hidx, Nat.mul_add_div hwpos, Nat.mul_add_mod,
    Nat.div_eq_of_lt hr, Nat.mod_eq_of_lt hr, Nat.add_zero]

/-- Claim C1: for every tile and every non-empty character set (with its
glyph array, which `main` builds with one glyph per character),
`closest_char` returns the character at the least index in character-set
order whose glyph buffer minimises the L1 distance to the tile: the returned
index minimises the distance, every earlier index has strictly larger
distance, and the returned index is never the later member of a pair of
pixel-identical glyph buffers. -/
theorem closest_char_returns_first_minimizer (char_set : List Char)
    (char_glyphs : List (List (List Int))) (tile : List (List Int))
    (hne : char_set ≠ []) (hlen : char_glyphs.length = char_set.length) :
    ∃ (i : Nat) (hcs : i < char_set.length) (hcg : i < char_glyphs.length),
      closest_char char_set char_glyphs tile = Except.ok (char_set.get ⟨i, hcs⟩) ∧
      (∀ (j : Nat) (hj : j < char_glyphs.length),
        l1Dist (char_glyphs.get ⟨i, hcg⟩) tile ≤ l1Dist (char_glyphs.get ⟨j, hj⟩) tile) ∧
      (∀ (j : Nat) (hj : j < char_glyphs.length), j < i →
        l1Dist (char_glyphs.get ⟨i, hcg⟩) tile < l1Dist (char_glyphs.get ⟨j, hj⟩) tile) ∧
      (∀ (j k : Nat) (hj : j < char_glyphs.length) (hk : k < char_glyphs.length),
        j < k → char_glyphs.get ⟨j, hj⟩ = char_glyphs.get ⟨k, hk⟩ → i ≠ k) :=
  closest_char_spec char_set char_glyphs tile hne hlen

/-- Witness for C1 at the concrete input `char_set = ['a']`,
`char_glyphs = [[[0]]]`, `tile = [[0]]`. -/
theorem closest_char_returns_first_minimizer_witness :
    ∃ (i : Nat) (hcs : i < (['a'] : List Char).length)
      (hcg : i < ([[[(0 : Int)]]] : List (List (List Int))).length),
      closest_char ['a'] [[[(0 : Int)]]] [[(0 : Int)]]
        = Except.ok ((['a'] : List Char).get ⟨i, hcs⟩) ∧
      (∀ (j : Nat) (hj : j < ([[[(0 : Int)]]] : List (List (List Int))).length),
        l1Dist (([[[(0 : Int)]]] : List (List (List Int))).get ⟨i, hcg⟩) [[(0 : Int)]]
          ≤ l1Dist (([[[(0 : Int)]]] : List (List (List Int))).get ⟨j, hj⟩) [[(0 : Int)]]) ∧
      (∀ (j : Nat) (hj : j < ([[[(0 : Int)]]] : List (List (List Int))).length), j < i →
        l1Dist (([[[(0 : Int)]]] : List (List (List Int))).get ⟨i, hcg⟩) [[(0 : Int)]]
          < l1Dist (([[[(0 : Int)]]] : List (List (List Int))).get ⟨j, hj⟩) [[(0 : Int)]]) ∧
      (∀ (j k : Nat) (hj : j < ([[[(0 : Int)]]] : List (List (List Int))).length)
        (hk : k < ([[[(0 : Int)]]] : List (List (List Int))).length),
        j < k → ([[[(0 : Int)]]] : List (List (List Int))).get ⟨j, hj⟩
          = ([[[(0 : Int)]]] : List (List (List Int))).get ⟨k, hk⟩ → i ≠ k) :=
  closest_char_returns_first_minimizer ['a'] [[[(0 : Int)]]] [[(0 : Int)]]
    (by decide) (by decide)

/-- Claim C2, amended: for a positive-size image and a successful tile-count
resolution with positive resolved counts, padded width/height are the stated
products (hence exact multiples of the resolved tile dimensions), and the
padding amounts lie in `[0, h_tile_count - 1]` and `[0, v_tile_count - 1]`
— bounded by the tile counts, not (as the claim stated) by the tile
dimensions. -/
theorem padded_dims_are_tile_multiples (w h n : Int) (vOpt : Option Int)
    (twMul thMul : ℚ) (fsOpt : Option Int) (g : Geometry)
    (hok : resolveTileCount w h n vOpt twMul thMul fsOpt = Except.ok g)
    (hw : 0 < w) (hh : 0 < h) (hn : 0 < g.h_tile_count) (hv : 0 < g.v_tile_count) :
    w + g.h_pad = g.tile_width * g.h_tile_count ∧
    h + g.v_pad = g.tile_height * g.v_tile_count ∧
    g.tile_width ∣ (w + g.h_pad) ∧
    g.tile_height ∣ (h + g.v_pad) ∧
    0 ≤ g.h_pad ∧ g.h_pad ≤ g.h_tile_count - 1 ∧
    0 ≤ g.v_pad ∧ g.v_pad ≤ g.v_tile_count - 1 := by
  obtain ⟨hhc, hn0, hv0, htw, hhp, hth, hvp⟩ :=
    resolveTileCount_ok w h n vOpt twMul thMul fsOpt g hok
  have hnpos : 0 < n := hhc ▸ hn
  have hvpos : 0 < g.v_tile_count := hv
  have he1 : w + g.h_pad = g.tile_width * g.h_tile_count := by
    rw [hhp, htw, hhc]; exact pad_closes_to_multiple w n
  have he2 : h + g.v_pad = g.tile_height * g.v_tile_count := by
    rw [hvp, hth]; exact pad_closes_to_multiple h g.v_tile_count
  have hb1 := fmod_neg_bounds w n hnpos
  have hb2 := fmod_neg_bounds h g.v_tile_count hvpos
  refine ⟨he1, he2, ⟨g.h_tile_count, he1⟩, ⟨g.v_tile_count, he2⟩, ?_, ?_, ?_, ?_⟩
  · rw [hhp]; exact hb1.1
  · rw [hhp, hhc]; omega
  · rw [hvp]; exact hb2.1
  · rw [hvp]; omega

/-- Witness for the amended C2 at `w = h = 1`, `-x 2 -y 2 -s 16`:
the resolver yields geometry `⟨1, 1, 2, 2, 1, 1, 16⟩`. -/
theorem padded_dims_are_tile_multiples_witness :
    (1 : Int) + 1 = 1 * 2 ∧ (1 : Int) + 1 = 1 * 2 ∧
    (1 : Int) ∣ (1 + 1) ∧ (1 : Int) ∣ (1 + 1) ∧
    (0 : Int) ≤ 1 ∧ (1 : Int) ≤ 2 - 1 ∧ (0 : Int) ≤ 1 ∧ (1 : Int) ≤ 2 - 1 :=
  padded_dims_are_tile_multiples 1 1 2 (some 2) DEFAULT_TILE_WIDTH DEFAULT_TILE_HEIGHT
    (some 16) ⟨1, 1, 2, 2, 1, 1, 16⟩ (by decide) (by decide) (by decide) (by decide)
    (by decide)

/-- Counterexample to C2 as stated: a 1×1 image with tile counts 2×2
resolves to tile width 1 but horizontal padding 1, and `1 ≤ tile_width - 1 =
0` is false — the padding amount exceeds `tile_width - 1`. -/
theorem padding_exceeds_tile_dim_cex :
    resolveTileCount 1 1 2 (some 2) DEFAULT_TILE_WIDTH DEFAULT_TILE_HEIGHT (some 16)
      = Except.ok ⟨1, 1, 2, 2, 1, 1, 16⟩ ∧ ¬ ((1 : Int) ≤ 1 - 1) :=
  ⟨by decide, by decide⟩

/-- Claim C3: in tile-count mode with image width `w ≥ 1` and tile count
`n ≥ 1`, the resolved tile width is `⌈w / n⌉` and the horizontal padding is
`tile_width * n - w`; analogously for the height and the resolved vertical
tile count. -/
theorem tile_count_mode_ceil_division (w h n : Int) (vOpt : Option Int)
    (twMul thMul : ℚ) (fsOpt : Option Int) (g : Geometry)
    (hok : resolveTileCount w h n vOpt twMul thMul fsOpt = Except.ok g)
    (hw : 0 < w) (hh : 0 < h) (hn : 0 < n) (hv : 0 < g.v_tile_count) :
    g.tile_width = ⌈(w : ℚ) / (n : ℚ)⌉ ∧
    g.h_pad = g.tile_width * n - w ∧
    g.tile_height = ⌈(h : ℚ) / (g.v_tile_count : ℚ)⌉ ∧
    g.v_pad = g.tile_height * g.v_tile_count - h := by
  obtain ⟨hhc, hn0, hv0, htw, hhp, hth, hvp⟩ :=
    resolveTileCount_ok w h n vOpt twMul thMul fsOpt g hok
  have hmul1 := pad_closes_to_multiple w n
  have hmul2 := pad_closes_to_multiple h g.v_tile_count
  refine ⟨?_, ?_, ?_, ?_⟩
  · rw [htw]; exact neg_fdiv_neg_eq_ceil w n hn
  · rw [hhp, htw]; linarith [hmul1]
  · rw [hth]; exact neg_fdiv_neg_eq_ceil h g.v_tile_count hv
  · rw [hvp, hth]; linarith [hmul2]

/-- Witness for C3 at `w = h = 1`, `-x 2 -y 2 -s 16`: tile width
`⌈1/2⌉ = 1` and padding `1 * 2 - 1 = 1`. -/
theorem tile_count_mode_ceil_division_witness :
    (1 : Int) = ⌈((1 : Int) : ℚ) / ((2 : Int) : ℚ)⌉ ∧
    (1 : Int) = 1 * 2 - 1 ∧
    (1 : Int) = ⌈((1 : Int) : ℚ) / ((2 : Int) : ℚ)⌉ ∧
    (1 : Int) = 1 * 2 - 1 :=
  tile_count_mode_ceil_division 1 1 2 (some 2) DEFAULT_TILE_WIDTH DEFAULT_TILE_HEIGHT
    (some 16) ⟨1, 1, 2, 2, 1, 1, 16⟩ (by decide) (by decide) (by decide) (by decide)
    (by decide)

/-- Claim C4: on a grid whose dimensions are exact multiples of the tile
dimensions, the `(i, j)`-th tile of `to_tiles` (row-major: `i` counts tile
rows top to bottom, `j` tile columns left to right) holds at position
`(a, b)` exactly the grid pixel `(i * tile_height + a, j * tile_width + b)`
— the sub-block spanning rows `i*tile_height..` and columns
`j*tile_width..`. -/
theorem to_tiles_row_major_block (frame : Grid) (tile_width tile_height i j a b : Nat)
    (htw : 0 < tile_width) (hth : 0 < tile_height)
    (hdw : tile_width ∣ frame.width) (hdh : tile_height ∣ frame.height)
    (hi : i < frame.height / tile_height) (hj : j < frame.width / tile_width)
    (ha : a < tile_height) (hb : b < tile_width) :
    to_tiles frame tile_width tile_height i j a b
      = frame.pixel (i * tile_height + a) (j * tile_width + b) :=
  to_tiles_entry frame tile_width tile_height i j a b htw hdw hj hb

/-- Witness for C4 on the 4×4 grid with `pixel r c = 4r + c`, 2×2 tiles:
the entry `(a, b) = (0, 1)` of tile `(i, j) = (1, 0)` is pixel `(2, 1)`. -/
theorem to_tiles_row_major_block_witness :
    to_tiles ⟨4, 4, fun r c => (r * 4 + c : Int)⟩ 2 2 1 0 0 1
      = (⟨4, 4, fun r c => (r * 4 + c : Int)⟩ : Grid).pixel (1 * 2 + 0) (0 * 2 + 1) :=
  to_tiles_row_major_block ⟨4, 4, fun r c => (r * 4 + c : Int)⟩ 2 2 1 0 0 1
    (by decide) (by decide) (by decide) (by decide) (by decide) (by decide)
    (by decide) (by decide)

/-- Claim C5 (code bug): in the `-d` branch, `font_size` does default to the
constant 16 (lines 122–123 run), but no tile width is ever resolved: line
128 reads `args.absolute_tile_width`, an attribute the parser never defines,
so every `-d` run dies with `AttributeError` before reaching the
`ceil(width_spec)` computation the claim describes. -/
theorem tile_dimension_mode_raises_attribute_error (fsOpt : Option Int) :
    tileDimensionFontSize none = 16 ∧
    parserDefines ArgAttr.absolute_tile_width = false ∧
    resolveTileDimensions fsOpt = Except.error RunError.attributeError :=
  ⟨rfl, rfl, rfl⟩

/-- Claim C6, amended: with `h_tile_count = 0` (whatever the `-y` setting)
or an explicit `v_tile_count = 0`, geometry resolution fails with
`ZeroDivisionError` raised by the attempted `divmod` (or by `h/w`), not with
any `InvalidGeometry` error — the code defines no such error and performs no
clamping. -/
theorem zero_tile_count_raises_zero_division (w h n : Int) (vOpt : Option Int)
    (twMul thMul : ℚ) (fsOpt : Option Int) :
    resolveTileCount w h 0 vOpt twMul thMul fsOpt
      = Except.error RunError.zeroDivisionError ∧
    resolveTileCount w h n (some 0) twMul thMul fsOpt
      = Except.error RunError.zeroDivisionError := by
  constructor
  · unfold resolveTileCount
    cases hv : resolveVTileCount w h 0 vOpt twMul thMul with
    | error e => rw [resolveVTileCount_error_eq w h 0 vOpt twMul thMul e hv]
    | ok v => simp
  · unfold resolveTileCount
    have hv : resolveVTileCount w h n (some 0) twMul thMul = Except.ok 0 := rfl
    simp only [hv]
    split <;> rfl

/-- Counterexample to C6 as stated: at the concrete input `w = h = 1`,
`h_tile_count = 0`, the resolver's result is `ZeroDivisionError` — the
division is attempted — and that is not the `InvalidGeometry` failure the
claim requires. -/
theorem zero_tile_count_not_invalid_geometry_cex :
    resolveTileCount 1 1 0 (some 1) DEFAULT_TILE_WIDTH DEFAULT_TILE_HEIGHT (some 16)
      = Except.error RunError.zeroDivisionError ∧
    Except.error RunError.zeroDivisionError
      ≠ (Except.error RunError.invalidGeometry : Except RunError Geometry) :=
  ⟨by decide, by decide⟩

/-- Claim C7, amended: with an empty character set (hence an empty glyph
array, as built in `main`), the matcher fails on every tile — but with the
numpy `ValueError` of the empty-array reduction/argmin, not with any
`EmptyCharacterSet` error, which the code does not define. -/
theorem empty_char_set_raises_numpy_value_error (tile : List (List Int)) :
    closest_char [] [] tile = Except.error RunError.valueError := rfl

/-- Counterexample to C7 as stated: on the concrete tile `[[0]]` with an
empty character set the failure is the numpy `ValueError`, not an
`EmptyCharacterSet` error. -/
theorem empty_char_set_error_identity_cex :
    closest_char [] [] [[(0 : Int)]] = Except.error RunError.valueError ∧
    Except.error RunError.valueError
      ≠ (Except.error RunError.emptyCharacterSet : Except RunError Char) :=
  ⟨rfl, by decide⟩

/-- Claim C8, amended: if the tile is pixel-identical to the glyph of the
character at index `jdx` (all glyphs having the tile's shape, as in the
program), then that glyph's distance is 0 and the matcher selects the
first character whose glyph equals the tile — an index `i ≤ jdx`; it is
`jdx` itself (so the claim holds) exactly when no earlier character has a
pixel-identical glyph. -/
theorem tile_equal_glyph_selects_first (char_set : List Char)
    (char_glyphs : List (List (List Int))) (tile : List (List Int))
    (hlen : char_glyphs.length = char_set.length)
    (hshape : ∀ g ∈ char_glyphs, sameShapeB g tile = true)
    (jdx : Nat) (hj : jdx < char_glyphs.length)
    (hexact : char_glyphs.get ⟨jdx, hj⟩ = tile) :
    l1Dist (char_glyphs.get ⟨jdx, hj⟩) tile = 0 ∧
    ∃ (i : Nat) (hcs : i < char_set.length) (hcg : i < char_glyphs.length),
      i ≤ jdx ∧ char_glyphs.get ⟨i, hcg⟩ = tile ∧
      (∀ (k : Nat) (hk : k < char_glyphs.length), k < i →
        char_glyphs.get ⟨k, hk⟩ ≠ tile) ∧
      closest_char char_set char_glyphs tile = Except.ok (char_set.get ⟨i, hcs⟩) := by
  have hne : char_set ≠ [] := by
    intro hc
    subst hc
    rw [List.length_nil] at hlen
    omega
  obtain ⟨i, hcs, hcg, hret, hmin, hfirst, _⟩ :=
    closest_char_spec char_set char_glyphs tile hne hlen
  have hdj : l1Dist (char_glyphs.get ⟨jdx, hj⟩) tile = 0 := by
    rw [hexact]; exact l1Dist_self tile
  have hmini : l1Dist (char_glyphs.get ⟨i, hcg⟩) tile = 0 := by
    have := hmin jdx hj
    omega
  have hij : i ≤ jdx := by
    by_contra hcon
    have := hfirst jdx hj (Nat.lt_of_not_le hcon)
    omega
  have hieq : char_glyphs.get ⟨i, hcg⟩ = tile :=
    (l1Dist_eq_zero_iff _ tile (hshape _ (List.get_mem char_glyphs i hcg))).mp hmini
  refine ⟨hdj, i, hcs, hcg, hij, hieq, ?_, hret⟩
  intro k hk hki hkeq
  have hgt := hfirst k hk hki
  rw [hkeq, l1Dist_self] at hgt
  omega

/-- Witness for the amended C8 at `char_set = ['a']`, its glyph equal to the
tile `[[0]]`. -/
theorem tile_equal_glyph_selects_first_witness :
    l1Dist (([[[(0 : Int)]]] : List (List (List Int))).get ⟨0, by decide⟩) [[(0 : Int)]] = 0 ∧
    ∃ (i : Nat) (hcs : i < (['a'] : List Char).length)
      (hcg : i < ([[[(0 : Int)]]] : List (List (List Int))).length),
      i ≤ 0 ∧ ([[[(0 : Int)]]] : List (List (List Int))).get ⟨i, hcg⟩ = [[(0 : Int)]] ∧
      (∀ (k : Nat) (hk : k < ([[[(0 : Int)]]] : List (List (List Int))).length), k < i →
        ([[[(0 : Int)]]] : List (List (List Int))).get ⟨k, hk⟩ ≠ [[(0 : Int)]]) ∧
      closest_char ['a'] [[[(0 : Int)]]] [[(0 : Int)]]
        = Except.ok ((['a'] : List Char).get ⟨i, hcs⟩) :=
  tile_equal_glyph_selects_first ['a'] [[[(0 : Int)]]] [[(0 : Int)]] (by decide)
    (by decide) 0 (by decide) (by decide)

/-- Counterexample to C8 as stated: characters `'a'` and `'b'` both have
glyph `[[0]]`; on the tile `[[0]]` — pixel-identical to `'b'`'s glyph — the
matcher returns `'a'`, not `'b'`. -/
theorem tile_equal_glyph_tie_cex :
    closest_char ['a', 'b'] [[[(0 : Int)]], [[(0 : Int)]]] [[(0 : Int)]] = Except.ok 'a' ∧
    ([[[(0 : Int)]], [[(0 : Int)]]] : List (List (List Int))).get? 1 = some [[(0 : Int)]] ∧
    closest_char ['a', 'b'] [[[(0 : Int)]], [[(0 : Int)]]] [[(0 : Int)]] ≠ Except.ok 'b' :=
  ⟨by decide, by decide, by decide⟩

/-- Claim C9, amended: a 1×1 image in tile-count mode with explicitly
supplied tile counts `n, m ≥ 1` (and an explicit font size) resolves to 1×1
tiles with paddings `n - 1` and `m - 1`; padding replicates the single
pixel, and for any non-empty character set the program emits the same
matched character for every one of the `m × n` tiles — exactly one output
character precisely when `n = m = 1`.  (With a derived vertical count the
run can instead crash; see the counterexample.) -/
theorem one_pixel_image_explicit_counts (p : Int) (n m : Int) (hn : 0 < n) (hm : 0 < m)
    (twMul thMul : ℚ) (fs : Int)
    (char_set : List Char) (char_glyphs : List (List (List Int)))
    (hne : char_set ≠ []) (hlen : char_glyphs.length = char_set.length) :
    ∃ g : Geometry,
      resolveTileCount 1 1 n (some m) twMul thMul (some fs) = Except.ok g ∧
      g.tile_width = 1 ∧ g.tile_height = 1 ∧ g.h_pad = n - 1 ∧ g.v_pad = m - 1 ∧
      ∃ c : Char,
        closest_char char_set char_glyphs [[p]] = Except.ok c ∧
        render_output (pad_with ⟨1, 1, fun _ _ => p⟩ (n - 1).toNat (m - 1).toNat) 1 1
            char_set char_glyphs
          = List.replicate m.toNat (List.replicate n.toNat (Except.ok c)) ∧
        (n = 1 → m = 1 →
          render_output (pad_with ⟨1, 1, fun _ _ => p⟩ (n - 1).toNat (m - 1).toNat) 1 1
              char_set char_glyphs
            = [[Except.ok c]]) := by
  have htw1 : -(Int.fdiv (-1) n) = 1 := by
    have hc := neg_fdiv_neg_eq_ceil 1 n hn
    rw [Int.cast_one] at hc
    rw [hc]
    exact ceil_one_div_of_pos n hn
  have hth1 : -(Int.fdiv (-1) m) = 1 := by
    have hc := neg_fdiv_neg_eq_ceil 1 m hm
    rw [Int.cast_one] at hc
    rw [hc]
    exact ceil_one_div_of_pos m hm
  have hhp : Int.fmod (-1) n = n - 1 := by
    have h2 := pad_closes_to_multiple 1 n
    rw [htw1] at h2
    omega
  have hvp : Int.fmod (-1) m = m - 1 := by
    have h2 := pad_closes_to_multiple 1 m
    rw [hth1] at h2
    omega
  have hg : resolveTileCount 1 1 n (some m) twMul thMul (some fs)
      = Except.ok ⟨1, 1, n, m, n - 1, m - 1, fs⟩ := by
    unfold resolveTileCount
    have hv : resolveVTileCount 1 1 n (some m) twMul thMul = Except.ok m := rfl
    simp only [hv]
    rw [if_neg (by omega : ¬ n = 0), if_neg (by omega : ¬ m = 0)]
    simp only [htw1, hth1, hhp, hvp]
    rfl
  obtain ⟨i, hcs, hcg, hret, _, _, _⟩ :=
    closest_char_spec char_set char_glyphs [[p]] hne hlen
  have hout : render_output (pad_with ⟨1, 1, fun _ _ => p⟩ (n - 1).toNat (m - 1).toNat) 1 1
      char_set char_glyphs
      = List.replicate m.toNat (List.replicate n.toNat
          (Except.ok (char_set.get ⟨i, hcs⟩))) := by
    have hrfl : render_output (pad_with ⟨1, 1, fun _ _ => p⟩ (n - 1).toNat (m - 1).toNat) 1 1
        char_set char_glyphs
        = (List.range ((1 + (m - 1).toNat) / 1)).map (fun _ =>
            (List.range ((1 + (n - 1).toNat) / 1)).map (fun _ =>
              closest_char char_set char_glyphs [[p]])) := rfl
    rw [hrfl]
    simp only [hret, Nat.div_one, List.map_const', List.length_range]
    rw [show 1 + (m - 1).toNat = m.toNat by omega, show 1 + (n - 1).toNat = n.toNat by omega]
  refine ⟨⟨1, 1, n, m, n - 1, m - 1, fs⟩, hg, rfl, rfl, rfl, rfl,
    char_set.get ⟨i, hcs⟩, hret, hout, ?_⟩
  intro hn1 hm1
  subst hn1
  subst hm1
  rw [hout]
  rfl

/-- Witness for the amended C9 at `p = 0`, `n = 2`, `m = 1`, `-s 16`,
`char_set = ['a']`: a 2-character, 1-line output. -/
theorem one_pixel_image_explicit_counts_witness :
    ∃ g : Geometry,
      resolveTileCount 1 1 2 (some 1) DEFAULT_TILE_WIDTH DEFAULT_TILE_HEIGHT (some 16)
        = Except.ok g ∧
      g.tile_width = 1 ∧ g.tile_height = 1 ∧ g.h_pad = 2 - 1 ∧ g.v_pad = 1 - 1 ∧
      ∃ c : Char,
        closest_char ['a'] [[[(0 : Int)]]] [[(0 : Int)]] = Except.ok c ∧
        render_output (pad_with ⟨1, 1, fun _ _ => (0 : Int)⟩ ((2 : Int) - 1).toNat
            ((1 : Int) - 1).toNat) 1 1 ['a'] [[[(0 : Int)]]]
          = List.replicate (1 : Int).toNat (List.replicate (2 : Int).toNat (Except.ok c)) ∧
        ((2 : Int) = 1 → (1 : Int) = 1 →
          render_output (pad_with ⟨1, 1, fun _ _ => (0 : Int)⟩ ((2 : Int) - 1).toNat
              ((1 : Int) - 1).toNat) 1 1 ['a'] [[[(0 : Int)]]]
            = [[Except.ok c]]) :=
  one_pixel_image_explicit_counts 0 2 1 (by decide) (by decide) DEFAULT_TILE_WIDTH
    DEFAULT_TILE_HEIGHT 16 ['a'] [[[(0 : Int)]]] (by decide) (by decide)

/-- Counterexample to C9 as stated: the valid request `-x 1` on a 1×1 image
(no `-y`, so `v_tile_count` is derived) computes
`round(1 * 1/1 * 0.6/1.5) = round(0.4) = 0` — the double computation also
yields a value below one half, so float and exact rounding agree — and the
following `divmod(-1, 0)` raises `ZeroDivisionError`: the pipeline fails
instead of producing one output character. -/
theorem one_pixel_image_derived_count_crash_cex :
    resolveTileCount 1 1 1 none DEFAULT_TILE_WIDTH DEFAULT_TILE_HEIGHT (some 16)
      = Except.error RunError.zeroDivisionError := by
  have hv : resolveVTileCount 1 1 1 none DEFAULT_TILE_WIDTH DEFAULT_TILE_HEIGHT
      = Except.ok 0 := by
    norm_num [resolveVTileCount, pyRound, DEFAULT_TILE_WIDTH, DEFAULT_TILE_HEIGHT]
  unfold resolveTileCount
  rw [hv]
  norm_num

/-- Claim C10: the resolved geometry depends only on the image dimensions
and the sizing arguments — two runs with the same dimensions but different
pixel data or contrast multiplier resolve identically, in either sizing
mode. -/
theorem geometry_independent_of_pixels_and_contrast (f1 f2 : List (List Int))
    (c1 c2 : ℚ) (use_tile_dimensions : Bool) (w h n : Int) (vOpt : Option Int)
    (twMul thMul : ℚ) (fsOpt : Option Int) :
    mainGeometry f1 c1 use_tile_dimensions w h n vOpt twMul thMul fsOpt
      = mainGeometry f2 c2 use_tile_dimensions w h n vOpt twMul thMul fsOpt := rfl
